import Mathlib

/-
Verification of the PublicDonationInventory system (a console library-style
donation inventory) against its design document.  The Python sources in
`inventory.py`, `managers.py` and `transaction_manager.py` are shallowly
embedded below: the SQLite ledger becomes an explicit list of transaction
records, the category tables become association lists of rows, dynamic SQL
query construction is modelled either by its relational semantics (filter,
projection, union-with-deduplication) or, where the claim is about the query
text itself, by the literal string the code builds.  User-visible outcomes
(success messages and error messages printed by the code) are modelled as
`Except` results, matching the design document's error taxonomy.
-/

namespace DonorWare

/-! ## Generic string and list helpers -/

/-- Tests whether `needle` is a prefix of `hay` (character lists). -/
def matchesAt : List Char → List Char → Bool
  | [], _ => true
  | _ :: _, [] => false
  | a :: as, b :: bs => a == b && matchesAt as bs

/-- Tests whether `needle` occurs as a contiguous run of exactly these
characters inside the second argument; used to exhibit verbatim
occurrences of a value inside a built query text. -/
def occursWithin (needle : List Char) : List Char → Bool
  | [] => needle.isEmpty
  | b :: bs => matchesAt needle (b :: bs) || occursWithin needle bs

/-- All suffixes of a list, longest first, the empty suffix included. -/
def suffixes {α : Type} : List α → List (List α)
  | [] => [[]]
  | a :: as => (a :: as) :: suffixes as

/-- The SQL LIKE wildcard that matches any run of characters. -/
def percentChar : Char := '%'

/-- The SQL LIKE wildcard that matches any single character. -/
def underscoreChar : Char := '_'

/-- Comparison of one pattern character with one text character under
SQLite's default LIKE case folding, which is case-insensitive exactly on
the ASCII range (`Char.toLower` folds exactly that range). -/
def charMatches (p t : Char) : Bool := Char.toLower p == Char.toLower t

/-- SQLite LIKE pattern matching of a whole text against a pattern: a
percent in the pattern matches any run of characters (realised by trying
every suffix of the remaining text), an underscore matches any single
character, and every other pattern character matches case-insensitively
on the ASCII range. -/
def likeMatch : List Char → List Char → Bool
  | [], text => text.isEmpty
  | p :: ps, text =>
    if p == percentChar then
      (suffixes text).any (fun s => likeMatch ps s)
    else
      match text with
      | [] => false
      | t :: ts => (p == underscoreChar || charMatches p t) && likeMatch ps ts

/-- SQL `column LIKE ?` with the bound parameter percent-term-percent, as
both search functions build it: a NULL cell never matches; a non-NULL
cell is matched against the wrapped pattern.  The source does not escape
the user's term, so a percent or underscore inside the term keeps its
SQL wildcard meaning. -/
def likeContains (cell : Option String) (term : String) : Bool :=
  match cell with
  | none => false
  | some s => likeMatch (percentChar :: (term.data ++ [percentChar])) s.data

/-- Case-insensitive prefix test on character lists, ASCII folding. -/
def ciMatchesAt : List Char → List Char → Bool
  | [], _ => true
  | _ :: _, [] => false
  | a :: as, b :: bs => charMatches a b && ciMatchesAt as bs

/-- Case-insensitive contiguous-substring test on character lists. -/
def ciOccursWithin (needle : List Char) : List Char → Bool
  | [] => needle.isEmpty
  | b :: bs => ciMatchesAt needle (b :: bs) || ciOccursWithin needle bs

/-- The filter predicate in the words of the design document ("contains
the term as a case-insensitive substring", NULL never matching), stated
independently of the LIKE machinery so the two can be compared: they
agree exactly when the term carries no LIKE metacharacter. -/
def ciContains (cell : Option String) (term : String) : Bool :=
  match cell with
  | none => false
  | some s => ciOccursWithin term.data s.data

/-- Keep-first deduplication of a list, preserving the order of first
occurrences.  This is the semantics of Python's
`list(OrderedSet(xs))` used by the transaction manager: the head is kept
and every later occurrence of it is discarded. -/
def dedupFirst {α : Type} [DecidableEq α] : List α → List α
  | [] => []
  | x :: xs => x :: (dedupFirst xs).filter (fun y => y ≠ x)

/-! ## The category registry (inventory.py) -/

/-- A category schema: a storage table name (`cls_item_type` in the source)
and the ordered list of its field names. -/
structure Category where
  cls_item_type : String
  fields : List String
deriving DecidableEq

/-- The Book category from inventory.py. -/
def book : Category := ⟨"book", ["name", "author", "genre", "date"]⟩

/-- The Magazine category from inventory.py. -/
def magazine : Category := ⟨"magazine", ["name", "publisher", "genre", "date"]⟩

/-- The Journal category from inventory.py. -/
def journal : Category :=
  ⟨"journal", ["name", "author", "journal_name", "volume", "issue", "format"]⟩

/-- The Manga category from inventory.py. -/
def manga : Category := ⟨"manga", ["name", "author", "publisher", "format"]⟩

/-- The WesternComic category from inventory.py. -/
def western_comic : Category :=
  ⟨"western_comic", ["name", "author", "publisher", "format"]⟩

/-- The ResearchPaper category from inventory.py. -/
def research_paper : Category :=
  ⟨"research_paper",
   ["name", "author", "journal_name", "abstract", "keywords", "date"]⟩

/-- The fixed registry of item types, in the order of the `item_types`
dictionary of main.py. -/
def item_types : List Category :=
  [book, magazine, journal, manga, western_comic, research_paper]

/-! ## The unified column set, computed at its three source sites -/

/-- The `common_columns` computation at lines 115-118 of
transaction_manager.py (inside `search_for_every_item_type`): concatenate
every category's field list, then deduplicate keeping first occurrences. -/
def common_columns_search (cats : List Category) : List String :=
  dedupFirst (cats.flatMap Category.fields)

/-- The `common_columns` computation at lines 179-182 of
transaction_manager.py (inside `get_items_added_by_user`). -/
def common_columns_items (cats : List Category) : List String :=
  dedupFirst (cats.flatMap Category.fields)

/-- The `common_columns` computation at lines 219-222 of
transaction_manager.py (inside `get_transaction_history`). -/
def common_columns_history (cats : List Category) : List String :=
  dedupFirst (cats.flatMap Category.fields)

/-! ## Category tables (the relational store for item records) -/

/-- One stored item record: an auto-assigned integer id, the cells for the
category's fields (absent or NULL cells are modelled as missing keys), and
the `user_name` column every item table carries (DBManager.create_table
appends it when the schema does not list it). -/
structure Row where
  id : Nat
  vals : List (String × Option String)
  user_name : String
deriving DecidableEq

/-- The value of a column of a stored row, NULL (`none`) when the row has no
cell for it. -/
def getVal (r : Row) (f : String) : Option String :=
  match r.vals.find? (fun p => p.1 == f) with
  | some p => p.2
  | none => none

/-- The item store: one list of rows per table name. -/
def DB : Type := List (String × List Row)

/-- The rows of a named table (`SELECT ... FROM name`). -/
def tableOf (db : DB) (name : String) : List Row :=
  match db.find? (fun p => p.1 == name) with
  | some p => p.2
  | none => []

/-! ## Search queries (transaction_manager.py) -/

/-- The WHERE clause built by both search functions: the OR-combination of
`field LIKE percent-term-percent` over the category's own fields. -/
def rowMatches (c : Category) (r : Row) (term : String) : Bool :=
  c.fields.any (fun f => likeContains (getVal r f) term)

/-- A result row of the cross-category search: the category tag selected as
`'{table_name}' as Category`, the row id, and one cell per unified column. -/
structure SearchRow where
  category : String
  id : Nat
  cells : List (Option String)
deriving DecidableEq

/-- The projection of one stored row into the unified column set, as built
at lines 125-129 of transaction_manager.py: a category's own column is
selected as itself, a column absent from the category is selected as
`NULL AS column`. -/
def projectRow (commonCols : List String) (c : Category) (r : Row) : SearchRow :=
  ⟨c.cls_item_type, r.id,
   commonCols.map (fun col => if col ∈ c.fields then getVal r col else none)⟩

/-- The per-category SELECT of `search_for_every_item_type`: filter the
category's table by the OR-combined LIKE clause over the category's own
fields, then project each matching row into the unified column set. -/
def subQuerySearch (db : DB) (commonCols : List String) (term : String)
    (c : Category) : List SearchRow :=
  ((tableOf db c.cls_item_type).filter (fun r => rowMatches c r term)).map
    (projectRow commonCols c)

/-- `TransactionManager.search_for_every_item_type` (lines 105-144):
the per-category SELECTs are combined with SQL UNION, i.e. set-union with
duplicate elimination across the whole result. -/
def search_for_every_item_type (db : DB) (cats : List Category)
    (term : String) : List SearchRow :=
  dedupFirst
    ((cats.map (subQuerySearch db (common_columns_search cats) term)).flatten)

/-- `TransactionManager.search_with_auto_complete` (lines 83-103): one
category, query `SELECT '{cls}' as Category, * FROM {cls} WHERE {likes}`.
`SELECT *` returns the table's stored columns in creation order: `id`, the
category's fields, then the implicit `user_name` column.  The function
returns the header list `["Category", "id"] ++ fields` together with the
result rows. -/
def search_with_auto_complete (db : DB) (c : Category) (term : String) :
    List String × List (List (Option String)) :=
  (["Category", "id"] ++ c.fields,
   ((tableOf db c.cls_item_type).filter (fun r => rowMatches c r term)).map
     (fun r =>
       [some c.cls_item_type, some (toString r.id)] ++
         c.fields.map (getVal r) ++ [some r.user_name]))

/-! ## The transaction ledger (borrow and return) -/

/-- One row of the `transactions` table (managers.py, lines 64-84).  Dates
are day numbers; the status column holds the literal strings of the code. -/
structure Txn where
  id : Nat
  user_name : String
  item_type : String
  item_id : Nat
  borrow_date : Nat
  due_date : Nat
  return_date : Option Nat
  status : String
deriving DecidableEq

/-- The ledger: the transactions table plus the auto-increment counter of
its integer primary key. -/
structure Ledger where
  txns : List Txn
  nextId : Nat
deriving DecidableEq

/-- The default borrow duration of `borrow_item` (7 days). -/
def default_borrow_duration_days : Nat := 7

/-- The availability check of `borrow_item` (line 37): all rows with
`item_id = ? AND item_type = ? AND status = 'borrowed'`. -/
def activeBorrows (l : List Txn) (ty : String) (iid : Nat) : List Txn :=
  l.filter (fun t => t.item_id == iid && t.item_type == ty && t.status == "borrowed")

/-- `TransactionManager.borrow_item` (lines 26-59).  When an active borrow
of the same (item_type, item_id) exists the operation reports the
already-borrowed error and inserts nothing; otherwise it inserts one new
transaction with `borrow_date = today`, `due_date = today + dur`,
`status = 'borrowed'` and no return date, and the user-visible success
outcome carries the created due date. -/
def borrow_item (st : Ledger) (u ty : String) (iid : Nat) (today dur : Nat) :
    Ledger × Except String Nat :=
  if activeBorrows st.txns ty iid ≠ [] then
    (st, Except.error "AlreadyBorrowedError")
  else
    (⟨st.txns ++ [⟨st.nextId, u, ty, iid, today, today + dur, none, "borrowed"⟩],
      st.nextId + 1⟩,
     Except.ok (today + dur))

/-- The update applied by the `UPDATE transactions SET return_date = ?,
status = 'returned' WHERE id = ?` statement of `return_item` (line 77): it
touches every row whose id equals the given transaction id. -/
def closeTxn (tid : Nat) (today : Nat) (t : Txn) : Txn :=
  if t.id == tid then { t with return_date := some today, status := "returned" }
  else t

/-- `TransactionManager.return_item` (lines 61-81).  The lookup is by
(id, user_name, status = 'borrowed'); when it finds nothing the operation
reports the no-active-borrow error and changes nothing, otherwise it marks
the transaction returned with today's date. -/
def return_item (st : Ledger) (u : String) (tid : Nat) (today : Nat) :
    Ledger × Except String Unit :=
  if st.txns.filter
      (fun t => t.id == tid && t.user_name == u && t.status == "borrowed") = [] then
    (st, Except.error "NoActiveBorrowError")
  else
    (⟨st.txns.map (closeTxn tid today), st.nextId⟩, Except.ok ())

/-- One ledger-mutating operation, for reasoning about arbitrary operation
sequences. -/
inductive Op where
  | borrow (u ty : String) (iid : Nat) (today dur : Nat)
  | ret (u : String) (tid : Nat) (today : Nat)

/-- The state reached by one operation (the result value is discarded). -/
def applyOp (st : Ledger) : Op → Ledger
  | Op.borrow u ty iid today dur => (borrow_item st u ty iid today dur).1
  | Op.ret u tid today => (return_item st u tid today).1

/-- The empty ledger the application starts from (SQLite assigns ids from
1). -/
def emptyLedger : Ledger := ⟨[], 1⟩

/-- The ledger reached from the empty ledger by a sequence of borrow and
return operations. -/
def runOps (ops : List Op) : Ledger :=
  ops.foldl applyOp emptyLedger

/-! ## The persistence gateway (managers.py, DBManager) -/

/-- The outcome of the underlying SQLite call, an input of the gateway
model: the store either succeeds with a value or fails with an error
message. -/
def SqliteOutcome (α : Type) : Type := Except String α

/-- `DBManager.execute` (lines 86-98): a mutating statement.  On success the
change is committed; on a store error the error is logged and then
re-raised to the caller (the bare `raise` after `rich_print`). -/
def DBManager.execute (attempt : SqliteOutcome Unit) : Except String Unit :=
  match attempt with
  | Except.ok _ => Except.ok ()
  | Except.error e => Except.error e

/-- `DBManager.fetchall` (lines 100-113): a read query.  On success the
ordered rows are returned; on a store error the error is logged, swallowed,
and the empty list is returned — the caller never sees an exception. -/
def DBManager.fetchall (attempt : SqliteOutcome (List (List (Option String)))) :
    List (List (Option String)) :=
  match attempt with
  | Except.ok rows => rows
  | Except.error _ => []

/-! ## The account directory (managers.py, UserManager) -/

/-- A stored bcrypt hash, modelled functionally: the value determines a
per-call salt and verifies exactly against the password it was derived
from (bcrypt's checkpw contract; the hashing internals are out of scope). -/
structure HashVal where
  pw : String
  salt : Nat
deriving DecidableEq

/-- Model of `bcrypt.hashpw(password, gensalt())`. -/
def hashpw (password : String) (salt : Nat) : HashVal := ⟨password, salt⟩

/-- Model of `bcrypt.checkpw(candidate, stored)`: succeeds exactly when the
candidate equals the password the stored hash was derived from. -/
def checkpw (candidate : String) (h : HashVal) : Bool :=
  candidate == h.pw

/-- The `users` table: (user_name, password hash) rows, user_name being the
primary key. -/
structure UsersTable where
  rows : List (String × HashVal)
deriving DecidableEq

/-- The `SELECT password FROM users WHERE user_name = ?` fetch of
`UserManager.login`. -/
def findUserHashes (db : UsersTable) (u : String) : List HashVal :=
  (db.rows.filter (fun p => p.1 == u)).map (fun p => p.2)

/-- `UserManager.register` (lines 157-173): hash the password with a fresh
salt and insert; the primary-key constraint makes the insert fail for an
existing user_name, which the method reports and re-raises (the design
document's DuplicateUserError). -/
def register (db : UsersTable) (u p : String) (salt : Nat) :
    Except String UsersTable :=
  if db.rows.any (fun r => r.1 == u) then Except.error "DuplicateUserError"
  else Except.ok ⟨db.rows ++ [(u, hashpw p salt)]⟩

/-- `UserManager.login` (lines 175-191): fetch the stored hash for the
user_name; return true only when a row exists and the hash check succeeds,
false otherwise — the unknown-user and wrong-password paths both fall
through to the same `return False`. -/
def login (db : UsersTable) (u p : String) : Bool :=
  match findUserHashes db u with
  | [] => false
  | h :: _ => checkpw p h

/-! ## Query-text construction (get_items_added_by_user, SQL strings) -/

/-- The single-quote character of the built SQL text. -/
def sqlQuote : String := String.singleton (Char.ofNat 39)

/-- The `select_columns` list of `get_items_added_by_user` (lines 187-190):
a column of the unified set is selected as itself when the category owns
it and as `NULL AS column` otherwise. -/
def selectColsItems (c : Category) (commonCols : List String) : List String :=
  commonCols.map (fun col => if col ∈ c.fields then col else "NULL AS " ++ col)

/-- The per-category subquery string of `get_items_added_by_user`
(lines 192-198).  The current user's name is interpolated directly into
the WHERE clause by the f-string, exactly as in the source. -/
def itemsAddedSubQuery (commonCols : List String) (user_name : String)
    (c : Category) : String :=
  "SELECT " ++ sqlQuote ++ c.cls_item_type ++ sqlQuote ++ " as category, " ++
    String.intercalate ", " (selectColsItems c commonCols) ++
    ", user_name FROM " ++ c.cls_item_type ++
    " WHERE user_name = " ++ sqlQuote ++ user_name ++ sqlQuote

/-- The final query string of `get_items_added_by_user` (lines 200-203):
the subqueries joined with UNION ALL, wrapped in an outer SELECT. -/
def get_items_added_by_user_query (cats : List Category) (user_name : String) :
    String :=
  let commonCols := common_columns_items cats
  "SELECT Category, " ++ String.intercalate ", " commonCols ++
    ", user_name FROM (" ++
    String.intercalate " UNION ALL "
      (cats.map (itemsAddedSubQuery commonCols user_name)) ++ ")"

/-- The parameter tuple `get_items_added_by_user` passes to `fetchall`
(line 205): none — the call binds no values at all. -/
def get_items_added_by_user_params : List String := []

/-- The per-category subquery string of `get_transaction_history`
(lines 236-243): again the current user's name is interpolated directly
into the WHERE clause by the f-string. -/
def historySubQuery (commonCols : List String) (user_name : String)
    (is_active : Bool) (c : Category) : String :=
  let selectCols := selectColsItems c commonCols ++
    ["borrow_date", "due_date", "return_date", "status"]
  let borrowFilter := if is_active then "AND t.status = " ++ sqlQuote ++
    "borrowed" ++ sqlQuote else ""
  "SELECT " ++ sqlQuote ++ c.cls_item_type ++ sqlQuote ++
    " as Category, t.id as TransactionId, " ++
    String.intercalate ", " selectCols ++
    ", t.user_name as user_name FROM transactions t JOIN " ++
    c.cls_item_type ++ " b ON t.item_id = b.id WHERE t.item_type = " ++
    sqlQuote ++ c.cls_item_type ++ sqlQuote ++ " AND t.user_name = " ++
    sqlQuote ++ user_name ++ sqlQuote ++ " " ++ borrowFilter

/-- The query string of `get_transaction_history` (lines 245-250), before
the optional active-only ORDER BY wrapper. -/
def get_transaction_history_query (cats : List Category) (user_name : String)
    (is_active : Bool) : String :=
  String.intercalate " UNION ALL "
    (cats.map (historySubQuery (common_columns_history cats) user_name is_active))

/-- The parameter tuple `get_transaction_history` passes to `fetchall`
(line 256): none. -/
def get_transaction_history_params : List String := []

/-- Exact-case substring test on strings, used to exhibit verbatim
occurrences of a user-supplied value inside a built query text. -/
def strOccurs (needle hay : String) : Bool :=
  occursWithin needle.data hay.data

/-- A hostile user name: `x' OR '1'='1` written with explicit quote
characters. -/
def injectionName : String :=
  "x" ++ sqlQuote ++ " OR " ++ sqlQuote ++ "1" ++ sqlQuote ++ "=" ++
    sqlQuote ++ "1"

/-! ## Concrete sample data for witnesses and counterexamples -/

/-- A stored book row contributed by alice. -/
def exampleBookRow : Row :=
  ⟨1, [("name", some "The Hobbit"), ("author", some "Tolkien"),
       ("genre", some "fantasy"), ("date", some "1937")], "alice"⟩

/-- A store holding one book table with one row. -/
def exampleDB : DB := [("book", [exampleBookRow])]

/-- A ledger holding one active borrow that belongs to bob. -/
def exLedgerBob : Ledger :=
  ⟨[⟨1, "bob", "book", 5, 0, 7, none, "borrowed"⟩], 2⟩

/-! ## Library lemmas about keep-first deduplication -/

theorem mem_dedupFirst {α : Type} [DecidableEq α] (a : α) (l : List α) :
    a ∈ dedupFirst l ↔ a ∈ l := by
  induction l with
  | nil => simp [dedupFirst]
  | cons x xs ih =>
    simp only [dedupFirst, List.mem_cons, List.mem_filter, ih,
      decide_eq_true_eq]
    by_cases h : a = x
    · simp [h]
    · simp [h]

theorem nodup_dedupFirst {α : Type} [DecidableEq α] (l : List α) :
    (dedupFirst l).Nodup := by
  induction l with
  | nil => simp [dedupFirst]
  | cons x xs ih =>
    rw [dedupFirst]
    refine List.Nodup.cons ?_ (ih.filter _)
    intro hmem
    simp only [List.mem_filter, decide_eq_true_eq] at hmem
    exact hmem.2 rfl

theorem dedupFirst_eq_self_of_nodup {α : Type} [DecidableEq α] (l : List α)
    (h : l.Nodup) : dedupFirst l = l := by
  induction l with
  | nil => simp [dedupFirst]
  | cons x xs ih =>
    rw [List.nodup_cons] at h
    rw [dedupFirst, ih h.2, List.filter_eq_self.mpr]
    intro a ha
    simp only [decide_eq_true_eq]
    intro hax
    exact h.1 (hax ▸ ha)

theorem dedupFirst_idem {α : Type} [DecidableEq α] (l : List α) :
    dedupFirst (dedupFirst l) = dedupFirst l :=
  dedupFirst_eq_self_of_nodup _ (nodup_dedupFirst l)

theorem dedupFirst_sublist {α : Type} [DecidableEq α] (l : List α) :
    (dedupFirst l).Sublist l := by
  induction l with
  | nil => simp [dedupFirst]
  | cons x xs ih =>
    rw [dedupFirst]
    exact List.Sublist.cons₂ x ((List.filter_sublist _).trans ih)

theorem dedupFirst_pairwise_indexOf {α : Type} [DecidableEq α] (l : List α) :
    (dedupFirst l).Pairwise (fun a b => l.indexOf a < l.indexOf b) := by
  induction l with
  | nil => simp [dedupFirst]
  | cons x xs ih =>
    rw [dedupFirst]
    refine List.Pairwise.cons ?_ ?_
    · intro b hb
      have hbx : b ≠ x := by
        simpa using (List.mem_filter.mp hb).2
      rw [List.indexOf_cons_self, List.indexOf_cons_ne _ (fun e => hbx e.symm)]
      exact Nat.succ_pos _
    · have hpair : ((dedupFirst xs).filter (fun y => y ≠ x)).Pairwise
          (fun a b => xs.indexOf a < xs.indexOf b) :=
        List.Pairwise.sublist (List.filter_sublist _) ih
      refine List.Pairwise.imp_of_mem ?_ hpair
      intro a b ha hb hab
      have hax : a ≠ x := by simpa using (List.mem_filter.mp ha).2
      have hbx : b ≠ x := by simpa using (List.mem_filter.mp hb).2
      rw [List.indexOf_cons_ne _ (fun e => hax e.symm),
        List.indexOf_cons_ne _ (fun e => hbx e.symm)]
      exact Nat.succ_lt_succ hab

/-! ## LIKE-matching lemmas -/

theorem nil_mem_suffixes {α : Type} (l : List α) : [] ∈ suffixes l := by
  induction l with
  | nil => simp [suffixes]
  | cons a as ih => simp [suffixes, ih]

theorem likeMatch_percent (s : List Char) : likeMatch [percentChar] s = true := by
  have h1 : likeMatch [percentChar] s =
      (suffixes s).any (fun s2 => likeMatch [] s2) := rfl
  rw [h1, List.any_eq_true]
  exact ⟨[], nil_mem_suffixes s, rfl⟩

theorem likeMatch_append_percent (t : List Char) (hp : percentChar ∉ t)
    (hu : underscoreChar ∉ t) :
    ∀ s, likeMatch (t ++ [percentChar]) s = ciMatchesAt t s := by
  induction t with
  | nil =>
    intro s
    simpa [ciMatchesAt] using likeMatch_percent s
  | cons c cs ih =>
    intro s
    have hc1 : (c == percentChar) = false := by
      simp only [beq_eq_false_iff_ne]
      intro e
      exact hp (by simp [e])
    have hc2 : (c == underscoreChar) = false := by
      simp only [beq_eq_false_iff_ne]
      intro e
      exact hu (by simp [e])
    have hp' : percentChar ∉ cs := fun h => hp (List.mem_cons_of_mem _ h)
    have hu' : underscoreChar ∉ cs := fun h => hu (List.mem_cons_of_mem _ h)
    cases s with
    | nil => simp [likeMatch, ciMatchesAt, hc1]
    | cons x xs => simp [likeMatch, ciMatchesAt, hc1, hc2, ih hp' hu' xs]

theorem any_suffixes_ciMatchesAt (t : List Char) :
    ∀ s, (suffixes s).any (fun s2 => ciMatchesAt t s2) = ciOccursWithin t s := by
  intro s
  induction s with
  | nil =>
    cases t with
    | nil => simp [suffixes, ciMatchesAt, ciOccursWithin]
    | cons c cs => simp [suffixes, ciMatchesAt, ciOccursWithin]
  | cons b bs ih => simp [suffixes, ciOccursWithin, ih]

theorem likeContains_eq_ciContains_of_plain (term : String)
    (hp : percentChar ∉ term.data) (hu : underscoreChar ∉ term.data)
    (cell : Option String) :
    likeContains cell term = ciContains cell term := by
  cases cell with
  | none => rfl
  | some s =>
    show likeMatch (percentChar :: (term.data ++ [percentChar])) s.data =
      ciOccursWithin term.data s.data
    have h1 : likeMatch (percentChar :: (term.data ++ [percentChar])) s.data =
        (suffixes s.data).any
          (fun s2 => likeMatch (term.data ++ [percentChar]) s2) := rfl
    rw [h1]
    simp only [likeMatch_append_percent term.data hp hu]
    exact any_suffixes_ciMatchesAt term.data s.data

/-! ## Ledger lemmas -/

theorem length_filter_map_le {α : Type} (p : α → Bool) (f : α → α)
    (hpf : ∀ t, p (f t) = true → p t = true) :
    ∀ l : List α, ((l.map f).filter p).length ≤ (l.filter p).length := by
  intro l
  induction l with
  | nil => simp
  | cons a t ih =>
    simp only [List.map_cons]
    by_cases hfa : p (f a)
    · rw [List.filter_cons_of_pos hfa, List.filter_cons_of_pos (hpf a hfa)]
      simpa using ih
    · rw [List.filter_cons_of_neg hfa]
      by_cases ha : p a
      · rw [List.filter_cons_of_pos ha]
        exact Nat.le_trans ih (Nat.le_succ _)
      · rw [List.filter_cons_of_neg ha]
        exact ih

theorem closeTxn_keeps_borrow_pred (ty : String) (iid tid today : Nat) :
    ∀ t : Txn,
      ((closeTxn tid today t).item_id == iid &&
        (closeTxn tid today t).item_type == ty &&
        (closeTxn tid today t).status == "borrowed") = true →
      (t.item_id == iid && t.item_type == ty && t.status == "borrowed") = true := by
  intro t h
  by_cases hid : t.id == tid
  · simp [closeTxn, hid] at h
  · simpa [closeTxn, hid] using h

theorem activeBorrows_append (l1 l2 : List Txn) (ty : String) (iid : Nat) :
    activeBorrows (l1 ++ l2) ty iid =
      activeBorrows l1 ty iid ++ activeBorrows l2 ty iid := by
  simp [activeBorrows, List.filter_append]

theorem activeBorrows_singleton (tx : Txn) (ty : String) (iid : Nat)
    (hty : tx.item_type = ty) (hiid : tx.item_id = iid)
    (hst : tx.status = "borrowed") :
    activeBorrows [tx] ty iid = [tx] := by
  simp [activeBorrows, List.filter_cons, hty, hiid, hst]

theorem activeBorrows_singleton_ne (tx : Txn) (ty : String) (iid : Nat)
    (hne : ¬ (tx.item_type = ty ∧ tx.item_id = iid)) :
    activeBorrows [tx] ty iid = [] := by
  rw [activeBorrows, List.filter_cons]
  rw [if_neg]
  · rfl
  · simp only [Bool.and_eq_true, beq_iff_eq]
    intro hp
    exact hne ⟨hp.1.2, hp.1.1⟩

theorem applyOp_preserves_inv (st : Ledger) (op : Op)
    (h : ∀ ty iid, (activeBorrows st.txns ty iid).length ≤ 1) :
    ∀ ty iid, (activeBorrows (applyOp st op).txns ty iid).length ≤ 1 := by
  cases op with
  | borrow u ty0 iid0 today dur =>
    by_cases hb : activeBorrows st.txns ty0 iid0 ≠ []
    · simpa [applyOp, borrow_item, hb] using h
    · push_neg at hb
      intro ty iid
      have hcond : ¬ activeBorrows st.txns ty0 iid0 ≠ [] := by simp [hb]
      simp only [applyOp, borrow_item, if_neg hcond]
      rw [activeBorrows_append]
      by_cases hp : ty0 = ty ∧ iid0 = iid
      · obtain ⟨h1, h2⟩ := hp
        subst h1
        subst h2
        rw [activeBorrows_singleton _ _ _ rfl rfl rfl, hb]
        simp
      · rw [activeBorrows_singleton_ne _ _ _ hp, List.append_nil]
        exact h ty iid
  | ret u tid today =>
    by_cases hc : st.txns.filter
        (fun t => t.id == tid && t.user_name == u && t.status == "borrowed") = []
    · simpa [applyOp, return_item, hc] using h
    · intro ty iid
      simp only [applyOp, return_item, if_neg hc]
      exact Nat.le_trans
        (length_filter_map_le _ _ (closeTxn_keeps_borrow_pred ty iid tid today)
          st.txns)
        (h ty iid)

theorem foldl_preserves_inv (ops : List Op) :
    ∀ st : Ledger, (∀ ty iid, (activeBorrows st.txns ty iid).length ≤ 1) →
      ∀ ty iid,
        (activeBorrows (List.foldl applyOp st ops).txns ty iid).length ≤ 1 := by
  induction ops with
  | nil => intro st h; simpa using h
  | cons op rest ih =>
    intro st h
    rw [List.foldl_cons]
    exact ih _ (applyOp_preserves_inv st op h)

/-! ## Claim theorems -/

/-- C1: starting from the empty ledger, after any sequence of borrow and
return operations the number of transactions with status borrowed for any
(item_type, item_id) pair is 0 or 1; moreover borrow first queries the
ledger for an active borrow of the pair and inserts no row when one is
found (it reports the already-borrowed error and leaves the ledger
unchanged). -/
theorem C1_borrow_invariant :
    (∀ (ops : List Op) (ty : String) (iid : Nat),
      (activeBorrows (runOps ops).txns ty iid).length ≤ 1) ∧
    (∀ (st : Ledger) (u ty : String) (iid today dur : Nat),
      activeBorrows st.txns ty iid ≠ [] →
      borrow_item st u ty iid today dur =
        (st, Except.error "AlreadyBorrowedError")) := by
  constructor
  · intro ops ty iid
    exact foldl_preserves_inv ops emptyLedger
      (by intro ty iid; simp [emptyLedger, activeBorrows]) ty iid
  · intro st u ty iid today dur hne
    simp [borrow_item, hne]

/-- C1 witness: a ledger holding an active borrow of (book, 5) rejects a
second borrow of the pair without inserting, and a concrete operation
sequence satisfies the at-most-one-active-borrow bound. -/
theorem C1_witness :
    (activeBorrows
      (runOps [Op.borrow "alice" "book" 5 0 7, Op.borrow "bob" "book" 5 1 7]).txns
      "book" 5).length ≤ 1 ∧
    activeBorrows exLedgerBob.txns "book" 5 ≠ [] ∧
    borrow_item exLedgerBob "carol" "book" 5 3 7 =
      (exLedgerBob, Except.error "AlreadyBorrowedError") :=
  ⟨C1_borrow_invariant.1 [Op.borrow "alice" "book" 5 0 7,
      Op.borrow "bob" "book" 5 1 7] "book" 5,
   by decide,
   C1_borrow_invariant.2 exLedgerBob "carol" "book" 5 3 7 (by decide)⟩

/-- C2: when no active borrow of (item_type, item_id) exists, borrow
inserts exactly one new transaction carrying borrow_date = today,
due_date = today + durationDays, status borrowed and no return date, the
created due date is the success outcome surfaced to the caller, and an
immediately following borrow of the same pair fails with the
already-borrowed error and changes nothing. -/
theorem C2_borrow_success (st : Ledger) (u ty : String) (iid today dur : Nat)
    (h : activeBorrows st.txns ty iid = []) :
    (borrow_item st u ty iid today dur).1.txns =
      st.txns ++ [⟨st.nextId, u, ty, iid, today, today + dur, none, "borrowed"⟩] ∧
    (borrow_item st u ty iid today dur).2 = Except.ok (today + dur) ∧
    ∀ u2 today2 dur2,
      borrow_item (borrow_item st u ty iid today dur).1 u2 ty iid today2 dur2 =
        ((borrow_item st u ty iid today dur).1,
          Except.error "AlreadyBorrowedError") := by
  have hcond : ¬ activeBorrows st.txns ty iid ≠ [] := by simp [h]
  have htx : (borrow_item st u ty iid today dur).1 =
      ⟨st.txns ++ [⟨st.nextId, u, ty, iid, today, today + dur, none, "borrowed"⟩],
        st.nextId + 1⟩ := by
    simp [borrow_item, hcond]
  refine ⟨by rw [htx], by simp [borrow_item, hcond], ?_⟩
  intro u2 today2 dur2
  have hne : activeBorrows
      (st.txns ++ [⟨st.nextId, u, ty, iid, today, today + dur, none, "borrowed"⟩])
      ty iid ≠ [] := by
    rw [activeBorrows_append, h, List.nil_append,
      activeBorrows_singleton _ _ _ rfl rfl rfl]
    simp
  rw [htx]
  simp only [borrow_item]
  rw [if_pos hne]

/-- C2 witness: borrowing (book, 5) on the empty ledger at day 0 for the
default 7 days creates the transaction with due date 7 and returns it,
and a second borrow of the pair fails. -/
theorem C2_witness :
    activeBorrows emptyLedger.txns "book" 5 = [] ∧
    (borrow_item emptyLedger "alice" "book" 5 0 7).1.txns =
      emptyLedger.txns ++
        [⟨emptyLedger.nextId, "alice", "book", 5, 0, 0 + 7, none, "borrowed"⟩] ∧
    (borrow_item emptyLedger "alice" "book" 5 0 7).2 = Except.ok (0 + 7) ∧
    borrow_item (borrow_item emptyLedger "alice" "book" 5 0 7).1 "bob" "book" 5 1 7 =
      ((borrow_item emptyLedger "alice" "book" 5 0 7).1,
        Except.error "AlreadyBorrowedError") := by
  have h := C2_borrow_success emptyLedger "alice" "book" 5 0 7 (by decide)
  exact ⟨by decide, h.1, h.2.1, h.2.2 "bob" 1 7⟩

/-- C3: return fails with the no-active-borrow error, leaving the ledger
unchanged, exactly when no transaction with the given id, the current
user's name and status borrowed exists (so a transaction of another user
or an already-closed one is rejected); on success every transaction with
the given id is marked with return_date = today and status returned and
every other transaction is untouched. -/
theorem C3_return_spec (st : Ledger) (u : String) (tid today : Nat) :
    ((return_item st u tid today).2 = Except.error "NoActiveBorrowError" ↔
      ¬ ∃ t ∈ st.txns, t.id = tid ∧ t.user_name = u ∧ t.status = "borrowed") ∧
    ((return_item st u tid today).2 = Except.error "NoActiveBorrowError" →
      (return_item st u tid today).1 = st) ∧
    ((return_item st u tid today).2 = Except.ok () →
      (return_item st u tid today).1.txns = st.txns.map (closeTxn tid today) ∧
      (∀ t ∈ st.txns, t.id ≠ tid → t ∈ (return_item st u tid today).1.txns) ∧
      (∀ t ∈ st.txns, t.id = tid →
        { t with return_date := some today, status := "returned" } ∈
          (return_item st u tid today).1.txns)) := by
  by_cases hc : st.txns.filter
      (fun t => t.id == tid && t.user_name == u && t.status == "borrowed") = []
  · have hres : return_item st u tid today =
        (st, Except.error "NoActiveBorrowError") := by
      unfold return_item
      rw [if_pos hc]
    have hnoex : ¬ ∃ t ∈ st.txns, t.id = tid ∧ t.user_name = u ∧
        t.status = "borrowed" := by
      intro hex
      rcases hex with ⟨t, htmem, h1, h2, h3⟩
      apply List.filter_eq_nil_iff.mp hc t htmem
      simp [h1, h2, h3]
    refine ⟨?_, ?_, ?_⟩
    · rw [hres]
      exact iff_of_true rfl hnoex
    · intro _
      rw [hres]
    · intro hok
      rw [hres] at hok
      exact absurd hok (by simp)
  · have hres : return_item st u tid today =
        (⟨st.txns.map (closeTxn tid today), st.nextId⟩, Except.ok ()) := by
      unfold return_item
      rw [if_neg hc]
    have hex : ∃ t ∈ st.txns, t.id = tid ∧ t.user_name = u ∧
        t.status = "borrowed" := by
      rcases List.exists_mem_of_ne_nil _ hc with ⟨t, htmem⟩
      have hmem := List.mem_filter.mp htmem
      refine ⟨t, hmem.1, ?_⟩
      have hp := hmem.2
      simp only [Bool.and_eq_true, beq_iff_eq] at hp
      exact ⟨hp.1.1, hp.1.2, hp.2⟩
    refine ⟨?_, ?_, ?_⟩
    · rw [hres]
      exact iff_of_false (by simp) (fun hno => hno hex)
    · intro habs
      rw [hres] at habs
      exact absurd habs (by simp)
    · intro _
      refine ⟨by rw [hres], ?_, ?_⟩
      · intro t htmem hne
        rw [hres]
        refine List.mem_map.mpr ⟨t, htmem, ?_⟩
        simp [closeTxn, hne]
      · intro t htmem heq
        rw [hres]
        refine List.mem_map.mpr ⟨t, htmem, ?_⟩
        simp [closeTxn, heq]

/-- C3 witness: the spec's ownership scenario — the only active borrow
belongs to bob, alice's return of its transaction id fails with the
no-active-borrow error and the ledger is unchanged. -/
theorem C3_witness :
    (return_item exLedgerBob "alice" 1 3).2 =
      Except.error "NoActiveBorrowError" ∧
    (return_item exLedgerBob "alice" 1 3).1 = exLedgerBob := by
  have h := C3_return_spec exLedgerBob "alice" 1 3
  have herr : (return_item exLedgerBob "alice" 1 3).2 =
      Except.error "NoActiveBorrowError" := h.1.mpr (by decide)
  exact ⟨herr, h.2.1 herr⟩

/-- C5: for every sequence of categories, the unified column computation
(`list(OrderedSet(...))` over the concatenated field lists) returns the
union of all distinct field names: it is duplicate-free, contains exactly
the field names of the given categories, preserves first-seen order (its
entries are strictly ordered by their first position of occurrence in the
concatenation), is idempotent (deduplicating its output again, or running
it on a category whose schema is its own output, reproduces the list), and
as a pure function it is order-stable across repeated calls. -/
theorem C5_unionColumns (cats : List Category) :
    (common_columns_search cats).Nodup ∧
    (∀ f, f ∈ common_columns_search cats ↔ ∃ c ∈ cats, f ∈ c.fields) ∧
    (common_columns_search cats).Pairwise
      (fun a b => (cats.flatMap Category.fields).indexOf a <
        (cats.flatMap Category.fields).indexOf b) ∧
    dedupFirst (common_columns_search cats) = common_columns_search cats ∧
    common_columns_search [⟨"union_view", common_columns_search cats⟩] =
      common_columns_search cats := by
  refine ⟨nodup_dedupFirst _, ?_, dedupFirst_pairwise_indexOf _,
    dedupFirst_idem _, ?_⟩
  · intro f
    rw [common_columns_search, mem_dedupFirst, List.mem_flatMap]
  · show dedupFirst ([(⟨"union_view", common_columns_search cats⟩ : Category)].flatMap
      Category.fields) = _
    simp only [List.flatMap_cons, List.flatMap_nil, List.append_nil]
    exact dedupFirst_idem _

/-- C5 witness: the unified column set of the full registry, evaluated. -/
theorem C5_witness :
    common_columns_search item_types =
      ["name", "author", "genre", "date", "publisher", "journal_name",
       "volume", "issue", "format", "abstract", "keywords"] ∧
    (common_columns_search item_types).Nodup :=
  ⟨by decide, (C5_unionColumns item_types).1⟩

/-- C10: the unified column set is computed independently at the three
source sites (cross-category search, items-added-by-user, transaction
history) and the three computations agree on every category registry. -/
theorem C10_unified_columns_agree (cats : List Category) :
    common_columns_search cats = common_columns_items cats ∧
    common_columns_items cats = common_columns_history cats :=
  ⟨rfl, rfl⟩

/-- C10 witness: agreement evaluated on the full registry. -/
theorem C10_witness :
    common_columns_search item_types = common_columns_items item_types ∧
    common_columns_items item_types = common_columns_history item_types :=
  C10_unified_columns_agree item_types

/-- C4 counterexample: the claim's case-insensitive-substring reading of
the filter is false of the program — the term is bound unescaped into the
LIKE patterns, so for the search term consisting of one underscore (an
SQL wildcard matching any single character) the cross-category search
returns the sample book row although, per the document's substring
predicate, no field of that row contains the term. -/
theorem C4_counterexample :
    projectRow (common_columns_search item_types) book exampleBookRow ∈
      search_for_every_item_type exampleDB item_types "_" ∧
    ∀ f ∈ book.fields, ciContains (getVal exampleBookRow f) "_" = false :=
  ⟨by decide, by decide⟩

/-- C4 (amended): the cross-category search builds one SELECT per category
that projects the category's own fields into the unified column set (a
column absent in the category is projected as NULL) and filters by the
OR-combination of `field LIKE ?` with the percent-wrapped term over only
that category's own fields — a case-insensitive match in which a percent
or underscore inside the term keeps its SQL wildcard meaning, since the
code does not escape the term; for terms free of both metacharacters this
filter coincides with the case-insensitive substring match (last
conjunct).  The per-category SELECTs are combined by set-union with
duplicate elimination across the whole result, every returned row carries
a category tag from the given category set, an id taken from a matching
stored row, and one cell per unified column, and the result holds no
duplicate rows.  Conversely every matching stored row's projection is in
the result. -/
theorem C4_searchAll_spec (db : DB) (cats : List Category) (term : String) :
    (search_for_every_item_type db cats term).Nodup ∧
    (∀ row ∈ search_for_every_item_type db cats term,
      ∃ c ∈ cats, row.category = c.cls_item_type ∧
        row.cells.length = (common_columns_search cats).length ∧
        (∀ i (hi : i < (common_columns_search cats).length),
          (common_columns_search cats).get ⟨i, hi⟩ ∉ c.fields →
          row.cells.getD i none = none) ∧
        ∃ r ∈ tableOf db c.cls_item_type,
          row.id = r.id ∧
          (∃ f ∈ c.fields, likeContains (getVal r f) term = true) ∧
          row = projectRow (common_columns_search cats) c r) ∧
    (∀ c ∈ cats, ∀ r ∈ tableOf db c.cls_item_type,
      (∃ f ∈ c.fields, likeContains (getVal r f) term = true) →
      projectRow (common_columns_search cats) c r ∈
        search_for_every_item_type db cats term) ∧
    (percentChar ∉ term.data → underscoreChar ∉ term.data →
      ∀ cell, likeContains cell term = ciContains cell term) := by
  refine ⟨nodup_dedupFirst _, ?_, ?_,
    fun hp hu cell => likeContains_eq_ciContains_of_plain term hp hu cell⟩
  · intro row hrow
    rw [search_for_every_item_type, mem_dedupFirst, List.mem_flatten] at hrow
    rcases hrow with ⟨lsub, hlsub, hrowin⟩
    rcases List.mem_map.mp hlsub with ⟨c, hc, hceq⟩
    subst hceq
    rcases List.mem_map.mp hrowin with ⟨r, hrfil, hre⟩
    have hrf := List.mem_filter.mp hrfil
    have hmatch := hrf.2
    rw [rowMatches, List.any_eq_true] at hmatch
    refine ⟨c, hc, ?_, ?_, ?_, r, hrf.1, ?_, hmatch, hre.symm⟩
    · rw [← hre]
      rfl
    · rw [← hre]
      exact List.length_map _ _
    · intro i hi hnotin
      rw [← hre]
      show ((common_columns_search cats).map
        (fun col => if col ∈ c.fields then getVal r col else none)).getD i none = none
      have hlen : i < ((common_columns_search cats).map
          (fun col => if col ∈ c.fields then getVal r col else none)).length := by
        rw [List.length_map]
        exact hi
      rw [List.getD_eq_getElem _ _ hlen, List.getElem_map]
      exact if_neg hnotin
    · rw [← hre]
      rfl
  · intro c hc r hr hmatch
    rw [search_for_every_item_type, mem_dedupFirst, List.mem_flatten]
    refine ⟨subQuerySearch db (common_columns_search cats) term c,
      List.mem_map_of_mem _ hc, ?_⟩
    refine List.mem_map.mpr ⟨r, List.mem_filter.mpr ⟨hr, ?_⟩, rfl⟩
    rw [rowMatches, List.any_eq_true]
    exact hmatch

/-- C4 witness: the search over the full registry on the sample store is
duplicate-free, the sample book row, which matches the term, appears
projected into the unified column set, and on the wildcard-free term the
LIKE filter coincides with the substring predicate. -/
theorem C4_witness :
    (search_for_every_item_type exampleDB item_types "tolkien").Nodup ∧
    projectRow (common_columns_search item_types) book exampleBookRow ∈
      search_for_every_item_type exampleDB item_types "tolkien" ∧
    likeContains (some "The Tolkien Reader") "tolkien" =
      ciContains (some "The Tolkien Reader") "tolkien" :=
  ⟨(C4_searchAll_spec exampleDB item_types "tolkien").1,
   (C4_searchAll_spec exampleDB item_types "tolkien").2.2.1 book (by decide)
     exampleBookRow (by decide) (by decide),
   (C4_searchAll_spec exampleDB item_types "tolkien").2.2.2 (by decide)
     (by decide) (some "The Tolkien Reader")⟩

/-- C6 counterexample: on a store whose book table holds one matching row,
the single-category search returns a row that is NOT just (category tag,
id, category fields): `SELECT *` also drags in the table's implicit
user_name column, so the row has 3 + 4 cells instead of the claimed
2 + 4, and its last cell is the contributor's name. -/
theorem C6_counterexample :
    (search_with_auto_complete exampleDB book "tolkien").2 =
      [[some "book", some "1", some "The Hobbit", some "Tolkien",
        some "fantasy", some "1937", some "alice"]] ∧
    ¬ ∀ row ∈ (search_with_auto_complete exampleDB book "tolkien").2,
        row.length = 2 + book.fields.length := by
  refine ⟨by decide, ?_⟩
  intro hall
  have := hall [some "book", some "1", some "The Hobbit", some "Tolkien",
    some "fantasy", some "1937", some "alice"] (by decide)
  exact absurd this (by decide)

/-- C6 (amended): for every category and search term, the single-category
search returns the header (Category, id, the category's fields) and
exactly the rows of that category's table in which at least one of the
category's own fields matches `field LIKE ?` with the percent-wrapped
term — case-insensitive, with a percent or underscore inside the term
keeping its SQL wildcard meaning since the code does not escape it; for
terms free of both metacharacters this is exactly the case-insensitive
substring match (last conjunct).  Each returned row consists of the
category tag, the row id, that category's fields, and additionally the
table's implicit user_name cell (selected by the `SELECT *`). -/
theorem C6_searchOne_amended (db : DB) (c : Category) (term : String) :
    (search_with_auto_complete db c term).1 = ["Category", "id"] ++ c.fields ∧
    (∀ row, row ∈ (search_with_auto_complete db c term).2 ↔
      ∃ r ∈ tableOf db c.cls_item_type,
        (∃ f ∈ c.fields, likeContains (getVal r f) term = true) ∧
        row = [some c.cls_item_type, some (toString r.id)] ++
          c.fields.map (getVal r) ++ [some r.user_name]) ∧
    (percentChar ∉ term.data → underscoreChar ∉ term.data →
      ∀ cell, likeContains cell term = ciContains cell term) := by
  refine ⟨rfl, ?_,
    fun hp hu cell => likeContains_eq_ciContains_of_plain term hp hu cell⟩
  intro row
  constructor
  · intro hmem
    rcases List.mem_map.mp hmem with ⟨r, hrfil, hre⟩
    have hrf := List.mem_filter.mp hrfil
    have hmatch := hrf.2
    rw [rowMatches, List.any_eq_true] at hmatch
    exact ⟨r, hrf.1, hmatch, hre.symm⟩
  · rintro ⟨r, hrmem, hmatch, heq⟩
    refine List.mem_map.mpr ⟨r, List.mem_filter.mpr ⟨hrmem, ?_⟩, heq.symm⟩
    rw [rowMatches, List.any_eq_true]
    exact hmatch

/-- C6 witness: the amended description evaluated on the sample store —
the header of the book search, the returned shape of the matching sample
row (user_name cell included), and the substring reading of the
wildcard-free term. -/
theorem C6_witness :
    (search_with_auto_complete exampleDB book "tolkien").1 =
      ["Category", "id"] ++ book.fields ∧
    ([some book.cls_item_type, some (toString exampleBookRow.id)] ++
        book.fields.map (getVal exampleBookRow) ++
        [some exampleBookRow.user_name]) ∈
      (search_with_auto_complete exampleDB book "tolkien").2 ∧
    likeContains (some "Tolkien") "tolkien" =
      ciContains (some "Tolkien") "tolkien" := by
  have h := C6_searchOne_amended exampleDB book "tolkien"
  exact ⟨h.1, (h.2.1 _).mpr ⟨exampleBookRow, by decide, by decide, rfl⟩,
    h.2.2 (by decide) (by decide) (some "Tolkien")⟩

/-- C7: a failing mutating call through the gateway's execute propagates
the persistence error to its caller, while a failing read call through
fetchall never raises and returns the empty sequence; a successful
fetchall returns the ordered result rows as delivered by the store. -/
theorem C7_gateway_error_asymmetry :
    (∀ e : String, DBManager.execute (Except.error e) = Except.error e) ∧
    DBManager.execute (Except.ok ()) = Except.ok () ∧
    (∀ e : String, DBManager.fetchall (Except.error e) = []) ∧
    (∀ rows, DBManager.fetchall (Except.ok rows) = rows) :=
  ⟨fun _ => rfl, rfl, fun _ => rfl, fun _ => rfl⟩

/-- C9: registering a fresh user and then verifying with the same
password succeeds; verifying with any different password returns false;
verifying an unknown user with any password returns false, and the
unknown-user outcome is literally the same value the caller sees for a
wrong password, so the two cases are indistinguishable. -/
theorem C9_register_verify (db : UsersTable) (u p : String) (salt : Nat)
    (h : ∀ r ∈ db.rows, r.1 ≠ u) :
    ∃ db2, register db u p salt = Except.ok db2 ∧
      login db2 u p = true ∧
      (∀ wrongP, wrongP ≠ p → login db2 u wrongP = false) ∧
      (∀ v, (∀ r ∈ db2.rows, r.1 ≠ v) → ∀ anyP, login db2 v anyP = false) ∧
      (∀ v wrongP anyP, wrongP ≠ p → (∀ r ∈ db2.rows, r.1 ≠ v) →
        login db2 v anyP = login db2 u wrongP) := by
  have hany : db.rows.any (fun r => r.1 == u) = false := by
    rw [List.any_eq_false]
    intro r hr
    simp [h r hr]
  have hreg : register db u p salt =
      Except.ok ⟨db.rows ++ [(u, hashpw p salt)]⟩ := by
    unfold register
    rw [if_neg (by simp [hany])]
  have hfind : findUserHashes ⟨db.rows ++ [(u, hashpw p salt)]⟩ u =
      [hashpw p salt] := by
    unfold findUserHashes
    rw [List.filter_append, List.filter_eq_nil_iff.mpr
      (by intro r hr; simp [h r hr])]
    simp
  have hunknown : ∀ v,
      (∀ r ∈ (UsersTable.mk (db.rows ++ [(u, hashpw p salt)])).rows, r.1 ≠ v) →
      ∀ anyP, login ⟨db.rows ++ [(u, hashpw p salt)]⟩ v anyP = false := by
    intro v hv anyP
    have hfv : findUserHashes ⟨db.rows ++ [(u, hashpw p salt)]⟩ v = [] := by
      unfold findUserHashes
      rw [List.filter_eq_nil_iff.mpr (by intro r hr; simp [hv r hr])]
      rfl
    simp [login, hfv]
  have hwrong : ∀ wrongP, wrongP ≠ p →
      login ⟨db.rows ++ [(u, hashpw p salt)]⟩ u wrongP = false := by
    intro wrongP hw
    unfold login
    rw [hfind]
    simp [checkpw, hashpw, hw]
  refine ⟨⟨db.rows ++ [(u, hashpw p salt)]⟩, hreg, ?_, hwrong, hunknown, ?_⟩
  · unfold login
    rw [hfind]
    simp [checkpw, hashpw]
  · intro v wrongP anyP hw hv
    rw [hunknown v hv anyP, hwrong wrongP hw]

/-- C9 witness: on the empty user table, registering alice with pw1 makes
verification succeed for (alice, pw1), fail for a wrong password and for
the unknown user bob, with identical outcomes in the last two cases. -/
theorem C9_witness :
    (∀ r ∈ (UsersTable.mk []).rows, r.1 ≠ "alice") ∧
    (∃ db2, register (UsersTable.mk []) "alice" "pw1" 0 = Except.ok db2 ∧
      login db2 "alice" "pw1" = true ∧
      (∀ wrongP, wrongP ≠ "pw1" → login db2 "alice" wrongP = false) ∧
      (∀ v, (∀ r ∈ db2.rows, r.1 ≠ v) → ∀ anyP, login db2 v anyP = false) ∧
      (∀ v wrongP anyP, wrongP ≠ "pw1" → (∀ r ∈ db2.rows, r.1 ≠ v) →
        login db2 v anyP = login db2 "alice" wrongP)) :=
  ⟨by simp, C9_register_verify ⟨[]⟩ "alice" "pw1" 0 (by simp)⟩

set_option maxRecDepth 8192 in
/-- C8: the claim that user-supplied values reach query text only through
positional parameter binding fails on the code — the listing of items
added by the current user and the transaction history both interpolate
the current user's name verbatim into the query string (here shown with a
hostile name carrying quote characters) and pass an empty parameter
tuple, so the value cannot have arrived through binding. -/
theorem C8_user_value_interpolated :
    strOccurs injectionName
      (get_items_added_by_user_query item_types injectionName) = true ∧
    strOccurs injectionName
      (get_transaction_history_query item_types injectionName true) = true ∧
    get_items_added_by_user_params = [] ∧
    get_transaction_history_params = [] :=
  ⟨by decide, by decide, rfl, rfl⟩

end DonorWare
